import Mathlib

/-!
Shallow embedding of the riv image browser core (src/program.rs, src/cli.rs):
the Browser navigation state machine, the triage Move operation, the run-loop
dispatch and the Fit Geometry function.

Conventions of the embedding:
* Rust `usize`/`u32` values are modelled as `Nat`; a subtraction that would
  underflow and an out-of-bounds `Vec` index (Rust panics) are modelled by
  the `panic` outcome.
* Rust methods mutate `self` in place, so an early `return Err(..)` leaves
  the mutations already made behind: the `err` outcome therefore carries the
  mutated state.
* The external SDL renderer is modelled by a `render` effect recording the
  path whose display is attempted; texture-load and canvas-copy failures are
  reported to stderr and change no core state, so they are not distinguished.
* `f32` arithmetic in the fit-geometry functions is modelled by exact
  rational arithmetic with truncation toward zero (floor on the non-negative
  values that occur there); at the concrete scenario inputs proved below
  every intermediate `f32` value is exactly representable, so the model
  agrees with the compiled code at those inputs.
-/

namespace Riv

/-- A file path as the core sees it: its raw text and the result of
`PathBuf::file_name` (`none` when no base name is extractable, e.g. `..`). -/
structure Path where
  raw : String
  fileName : Option String
deriving DecidableEq

/-- The Browser-relevant fields of `Program` (src/program.rs lines 19-27):
the image list, the destination folder and the current index. The SDL
handles are external collaborators and carry no Browser state. -/
structure State where
  images : List Path
  dest_folder : String
  index : Nat
deriving DecidableEq

/-- `ui::State` as constructed in `init` (src/program.rs lines 55-58):
whether each shift key is currently held. -/
structure UiState where
  left_shift : Bool
  right_shift : Bool
deriving DecidableEq

/-- The filesystem collaborator: the directories and files (by raw path)
that currently exist. -/
structure FS where
  dirs : List String
  files : List String
deriving DecidableEq

/-- Observable render effect: an attempt to display the image at a path. -/
inductive Effect where
  | render (p : Path)
deriving DecidableEq

/-- Outcome of one Browser operation: `Ok(())` with the new state and the
effects emitted, `Err(msg)` with the (already mutated) state, or a Rust
panic. -/
inductive StepResult where
  | ok (s : State) (fs : FS) (effs : List Effect)
  | err (s : State) (fs : FS) (msg : String)
  | panic (msg : String)
deriving DecidableEq

/-- `Program::init` (src/program.rs lines 32-68), restricted to the core
fields: the parsed file list and destination folder are inputs (cli parsing
and SDL setup are external collaborators); the index starts at 0. -/
def init (files : List Path) (dest : String) : State :=
  { images := files, dest_folder := dest, index := 0 }

/-- `Program::render` (src/program.rs lines 71-92): no-op on an empty list;
otherwise indexes `self.images[self.index]` (a panic when out of bounds) and
attempts to display that image. Core state is never changed. -/
def render (s : State) (fs : FS) : StepResult :=
  if s.images = [] then .ok s fs []
  else
    match s.images.get? s.index with
    | some p => .ok s fs [Effect.render p]
    | none => .panic "index out of bounds"

/-- `Program::increment` (src/program.rs lines 94-102): early `Ok` without
rendering when the list is empty or a singleton; otherwise the guard
`self.index < self.images.len() - step` uses usize subtraction, a panic when
`step > len`; then renders. -/
def increment (s : State) (fs : FS) (step : Nat) : StepResult :=
  if s.images = [] ∨ s.images.length = 1 then .ok s fs []
  else if step ≤ s.images.length then
    if s.index < s.images.length - step then
      render { s with index := s.index + step } fs
    else
      render s fs
  else .panic "attempt to subtract with overflow"

/-- `Program::decrement` (src/program.rs lines 104-109): subtract `step`
only when `self.index >= step`, then always render. -/
def decrement (s : State) (fs : FS) (step : Nat) : StepResult :=
  if step ≤ s.index then render { s with index := s.index - step } fs
  else render s fs

/-- `Program::first` (src/program.rs lines 111-114). -/
def first (s : State) (fs : FS) : StepResult :=
  render { s with index := 0 } fs

/-- `Program::last` (src/program.rs lines 116-123). -/
def last (s : State) (fs : FS) : StepResult :=
  if s.images = [] then render { s with index := 0 } fs
  else render { s with index := s.images.length - 1 } fs

/-- `std::fs::create_dir_all` on the filesystem collaborator: idempotently
ensure the directory exists ("already exists" is success, src/program.rs
lines 126-132). -/
def create_dir_all (dir : String) (fs : FS) : FS :=
  if dir ∈ fs.dirs then fs else { fs with dirs := dir :: fs.dirs }

/-- `fs_extra::file::move_file src dst`: succeeds iff the source file
exists, relocating it to the destination path. -/
def move_file (src dst : String) (fs : FS) : Option FS :=
  if src ∈ fs.files then some { fs with files := dst :: fs.files.erase src }
  else none

/-- `PathBuf::from(dest).join(filename)` (src/program.rs line 141). -/
def pathJoin (dir name : String) : String :=
  dir ++ "/" ++ name

/-- `Program::move_image` (src/program.rs lines 125-145), in source order:
ensure the destination directory; `self.images.remove(self.index)` (a panic
when the index is not below the length, so also on an empty list); adjust
the index; only then extract the base name (`Err` when absent, with the
removal already done); move the file; render. -/
def move_image (s : State) (fs : FS) : StepResult :=
  let fs1 := create_dir_all s.dest_folder fs
  match s.images.get? s.index with
  | none => .panic "removal index should be less than len"
  | some filepath =>
    let images1 := s.images.eraseIdx s.index
    let index1 := if images1.length ≤ s.index ∧ images1 ≠ [] then s.index - 1 else s.index
    let s1 : State := { s with images := images1, index := index1 }
    match filepath.fileName with
    | none => .err s1 fs1 "failed to read filename for current image"
    | some filename =>
      match move_file filepath.raw (pathJoin s.dest_folder filename) fs1 with
      | none => .err s1 fs1 "failed to move file"
      | some fs2 => render s1 fs2

/-- The abstract actions produced by `ui::event_action`, as matched in
`Program::run` (src/program.rs lines 153-165). -/
inductive Action where
  | quit
  | reRender
  | next
  | prev
  | move
  | first
  | last
  | noop
deriving DecidableEq

/-- One dispatch step of the `run` event loop (src/program.rs lines
148-171): `Next`/`Prev` always receive step `1`; a `Move` error is printed
and the loop continues with the mutated state; the ui (modifier) state is
taken as a parameter and — as in the source — never consulted. -/
def runStep (ui : UiState) (s : State) (fs : FS) (a : Action) : StepResult :=
  match ui, a with
  | _, .quit => .ok s fs []
  | _, .reRender => render s fs
  | _, .next => increment s fs 1
  | _, .prev => decrement s fs 1
  | _, .move =>
    match move_image s fs with
    | .ok s1 fs1 effs => .ok s1 fs1 effs
    | .err s1 fs1 _ => .ok s1 fs1 []
    | .panic m => .panic m
  | _, .first => first s fs
  | _, .last => last s fs
  | _, .noop => .ok s fs []

/-- The Browser navigation operations of spec §4.1 with their explicit step
parameter, used to state the index invariant over arbitrary call
sequences. -/
inductive NavOp where
  | next (step : Nat)
  | prev (step : Nat)
  | first
  | last
deriving DecidableEq

/-- Execute one navigation operation. -/
def navStep (s : State) (fs : FS) : NavOp → StepResult
  | .next step => increment s fs step
  | .prev step => decrement s fs step
  | .first => first s fs
  | .last => last s fs

/-- Execute a finite sequence of navigation operations, accumulating the
emitted effects; an error or panic aborts the sequence as it would abort
the program. -/
def navRun (s : State) (fs : FS) : List NavOp → StepResult
  | [] => .ok s fs []
  | op :: ops =>
    match navStep s fs op with
    | .ok s1 fs1 e1 =>
      match navRun s1 fs1 ops with
      | .ok s2 fs2 e2 => .ok s2 fs2 (e1 ++ e2)
      | .err s2 fs2 m => .err s2 fs2 m
      | .panic m => .panic m
    | .err s1 fs1 m => .err s1 fs1 m
    | .panic m => .panic m

/-- An SDL `Rect`: `Rect::new(x: i32, y: i32, width: u32, height: u32)`. -/
structure Rect where
  x : Int
  y : Int
  w : Nat
  h : Nat
deriving DecidableEq

/-- `full_rect` (src/program.rs lines 189-193): center the image at native
size. The `u32` subtractions are exact at every call site (guarded by the
strict comparisons in `make_dst`). -/
def full_rect (src_x src_y dst_x dst_y : Nat) : Rect :=
  { x := (((dst_x - src_x : Nat) : ℚ) / 2).floor
  , y := (((dst_y - src_y : Nat) : ℚ) / 2).floor
  , w := src_x
  , h := src_y }

/-- `fit_x_rect` (src/program.rs lines 195-199): fit to full viewport
width. -/
def fit_x_rect (src_x src_y dst_x dst_y : Nat) : Rect :=
  let height := (((src_y : ℚ) / (src_x : ℚ)) * (dst_x : ℚ)).floor.toNat
  { x := 0
  , y := (((dst_y - height : Nat) : ℚ) / 2).floor
  , w := dst_x
  , h := height }

/-- `fit_y_rect` (src/program.rs lines 201-205): fit to full viewport
height. -/
def fit_y_rect (src_x src_y dst_x dst_y : Nat) : Rect :=
  let width := (((src_x : ℚ) / (src_y : ℚ)) * (dst_y : ℚ)).floor.toNat
  { x := (((dst_x - width : Nat) : ℚ) / 2).floor
  , y := 0
  , w := width
  , h := dst_y }

/-- `make_dst` (src/program.rs lines 176-187): three cases evaluated in
order, first match wins. -/
def make_dst (src_x src_y dst_x dst_y : Nat) : Rect :=
  if src_x < dst_x ∧ src_y < dst_y then full_rect src_x src_y dst_x dst_y
  else if (src_x : ℚ) / (src_y : ℚ) > (dst_x : ℚ) / (dst_y : ℚ) then
    fit_x_rect src_x src_y dst_x dst_y
  else fit_y_rect src_x src_y dst_x dst_y

/-- Fit Geometry as worded in spec §4.2, for comparison with `make_dst`:
three cases evaluated in order, first match wins; the derived dimension is
the aspect-ratio product truncated toward zero (the spec's stated rounding
rule), and the offsets center the result. -/
def fitGeometrySpec (src_w src_h dst_w dst_h : Nat) : Rect :=
  if src_w < dst_w ∧ src_h < dst_h then
    { x := (((dst_w - src_w : Nat) : ℚ) / 2).floor
    , y := (((dst_h - src_h : Nat) : ℚ) / 2).floor
    , w := src_w
    , h := src_h }
  else if (src_w : ℚ) / (src_h : ℚ) > (dst_w : ℚ) / (dst_h : ℚ) then
    let height := (((src_h : ℚ) / (src_w : ℚ)) * (dst_w : ℚ)).floor.toNat
    { x := 0
    , y := (((dst_h - height : Nat) : ℚ) / 2).floor
    , w := dst_w
    , h := height }
  else
    let width := (((src_w : ℚ) / (src_h : ℚ)) * (dst_h : ℚ)).floor.toNat
    { x := (((dst_w - width : Nat) : ℚ) / 2).floor
    , y := 0
    , w := width
    , h := dst_h }

/-- Sample image path `a.jpg`. -/
def pA : Path := ⟨"a.jpg", some "a.jpg"⟩

/-- Sample image path `b.jpg`. -/
def pB : Path := ⟨"b.jpg", some "b.jpg"⟩

/-- Sample path with no extractable base name (`PathBuf::file_name` of `..`
is `None`). -/
def pN : Path := ⟨"..", none⟩

/-- Sample filesystem: the sample files exist, no directories yet. -/
def fs0 : FS := ⟨[], ["a.jpg", "b.jpg", ".."]⟩

/-- `render` at a valid index succeeds, changes nothing, and emits exactly
one render effect for the image at the current index. -/
theorem render_ok_of_lt {s : State} {fs : FS} (hidx : s.index < s.images.length) :
    render s fs = .ok s fs [Effect.render (s.images.get ⟨s.index, hidx⟩)] := by
  have himgs : s.images ≠ [] := by
    intro h
    rw [h] at hidx
    simp at hidx
  simp only [render, if_neg himgs]
  rw [List.get?_eq_get hidx]

/-- When `render` returns `Ok`, it has changed neither the program state
nor the filesystem. -/
theorem render_ok_state {s : State} {fs : FS} {s' : State} {fs' : FS} {effs : List Effect}
    (h : render s fs = .ok s' fs' effs) : s' = s ∧ fs' = fs := by
  simp only [render] at h
  split at h
  · cases h
    exact ⟨rfl, rfl⟩
  · split at h
    · cases h
      exact ⟨rfl, rfl⟩
    · cases h

/-- Claim C1: on the empty `ImageList` (as produced by `init`), `Render`,
`Next` and `Prev` do return success and leave the program state and the
filesystem unchanged — but `Move` does not return success: the unguarded
`self.images.remove(self.index)` panics on the empty vector (and the
destination directory has already been ensured before the panic), so the
claimed success with unchanged state fails for `Move`. -/
theorem c1_empty_list_ops :
    render (init [] "keep") fs0 = .ok (init [] "keep") fs0 []
    ∧ increment (init [] "keep") fs0 1 = .ok (init [] "keep") fs0 []
    ∧ decrement (init [] "keep") fs0 1 = .ok (init [] "keep") fs0 []
    ∧ move_image (init [] "keep") fs0 = .panic "removal index should be less than len" := by
  decide

/-- Claim C7: `make_dst` coincides with the three-case, first-match-wins
algorithm worded in spec §4.2 on every input, and in particular produces
the three rectangles of the spec's scenarios. -/
theorem c7_fit_geometry_cases :
    (∀ src_w src_h dst_w dst_h : Nat,
      make_dst src_w src_h dst_w dst_h = fitGeometrySpec src_w src_h dst_w dst_h)
    ∧ make_dst 800 600 1000 1000 = ⟨100, 200, 800, 600⟩
    ∧ make_dst 2000 500 800 600 = ⟨0, 200, 800, 200⟩
    ∧ make_dst 500 2000 800 600 = ⟨325, 0, 150, 600⟩ := by
  refine ⟨fun a b c d => ?_, ?_, ?_, ?_⟩
  · simp [make_dst, fitGeometrySpec, full_rect, fit_x_rect, fit_y_rect]
  · norm_num [make_dst, full_rect, fit_x_rect, fit_y_rect, Rat.floor_def']
  · norm_num [make_dst, full_rect, fit_x_rect, fit_y_rect, Rat.floor_def']
    rw [show Int.toNat 200 = 200 from rfl]
    norm_num [Rat.floor_def']
  · norm_num [make_dst, full_rect, fit_x_rect, fit_y_rect, Rat.floor_def']
    rw [show Int.toNat 150 = 150 from rfl]
    norm_num [Rat.floor_def']

/-- Claim C10: `init` always starts with `CurrentIndex = 0`, and the
initial render performed by `run` before the event loop (src/program.rs
line 149) displays the first image whenever the list is non-empty. -/
theorem c10_init_starts_at_first (files : List Path) (dest : String) (fs : FS) :
    (init files dest).index = 0
    ∧ ∀ p rest, files = p :: rest →
        render (init files dest) fs = .ok (init files dest) fs [Effect.render p] := by
  refine ⟨rfl, ?_⟩
  intro p rest hf
  subst hf
  simp [init, render]

/-- Witness for C10 at a concrete one-image list. -/
theorem c10_init_starts_at_first_witness :
    (init [pA] "keep").index = 0
    ∧ render (init [pA] "keep") fs0 = .ok (init [pA] "keep") fs0 [Effect.render pA] :=
  ⟨(c10_init_starts_at_first [pA] "keep" fs0).1,
   (c10_init_starts_at_first [pA] "keep" fs0).2 pA [] rfl⟩

/-- Counterexample to claim C2: for the one-element list holding the
nameless path `..`, `Move` fails as claimed, but the list does NOT still
contain the element that was at `CurrentIndex` — `remove` has already run
when the base-name extraction fails, so the resulting list is empty. -/
theorem c2_move_removal_not_atomic_cex :
    move_image ⟨[pN], "keep", 0⟩ fs0
      = .err ⟨[], "keep", 0⟩ ⟨["keep"], ["a.jpg", "b.jpg", ".."]⟩
          "failed to read filename for current image"
    ∧ pN ∉ (⟨[], "keep", 0⟩ : State).images := by
  decide

/-- Claim C2 as amended: when the path at a valid `CurrentIndex` has no
extractable base name, `Move` fails — but the element has already been
removed from `ImageList` (the list shrinks by exactly one), and only the
physical file move is skipped (the filesystem keeps its files; at most the
destination directory has been created). -/
theorem c2_move_no_filename_err (s : State) (fs : FS) (p : Path)
    (hget : s.images.get? s.index = some p) (hname : p.fileName = none) :
    ∃ s1, move_image s fs
        = .err s1 (create_dir_all s.dest_folder fs) "failed to read filename for current image"
      ∧ s1.images = s.images.eraseIdx s.index
      ∧ s1.images.length + 1 = s.images.length
      ∧ (create_dir_all s.dest_folder fs).files = fs.files := by
  have hlt : s.index < s.images.length := by
    rcases List.get?_eq_some.mp hget with ⟨h1, _⟩
    exact h1
  refine ⟨⟨s.images.eraseIdx s.index, s.dest_folder,
           if (s.images.eraseIdx s.index).length ≤ s.index ∧ s.images.eraseIdx s.index ≠ []
           then s.index - 1 else s.index⟩,
          ?_, rfl, List.length_eraseIdx_add_one hlt, ?_⟩
  · simp only [move_image]
    split
    · rename_i heq
      rw [hget] at heq
      cases heq
    · rename_i filepath heq
      rw [hget] at heq
      injection heq with h2
      subst h2
      rw [hname]
  · unfold create_dir_all
    split <;> rfl

/-- Witness for the amended C2 at the concrete nameless one-element list. -/
theorem c2_move_no_filename_err_witness :
    ∃ s1, move_image ⟨[pN], "keep", 0⟩ fs0
        = .err s1 (create_dir_all "keep" fs0) "failed to read filename for current image"
      ∧ s1.images = ([pN] : List Path).eraseIdx 0
      ∧ s1.images.length + 1 = ([pN] : List Path).length
      ∧ (create_dir_all "keep" fs0).files = fs0.files :=
  c2_move_no_filename_err ⟨[pN], "keep", 0⟩ fs0 pN (by decide) rfl

/-- Claim C8: a successful `Move` shrinks `ImageList` by exactly one
element and never increases `CurrentIndex`; removing the last element of a
list of length `n ≥ 2` leaves `CurrentIndex = n - 2`, and for `n = 1` the
list becomes empty with the index left at its previous value. -/
theorem c8_move_success_shrinks (s : State) (fs : FS) (s' : State) (fs' : FS)
    (effs : List Effect) (h : move_image s fs = .ok s' fs' effs) :
    s'.images.length + 1 = s.images.length
    ∧ s'.index ≤ s.index
    ∧ (s.index + 1 = s.images.length →
        (2 ≤ s.images.length → s'.index + 2 = s.images.length)
        ∧ (s.images.length = 1 → s'.images = [] ∧ s'.index = s.index)) := by
  have hmain : s.index < s.images.length
      ∧ s'.images = s.images.eraseIdx s.index
      ∧ s'.index = (if (s.images.eraseIdx s.index).length ≤ s.index ∧ s.images.eraseIdx s.index ≠ []
                    then s.index - 1 else s.index) := by
    simp only [move_image] at h
    split at h
    · cases h
    · rename_i filepath heq
      have hlt : s.index < s.images.length := by
        rcases List.get?_eq_some.mp heq with ⟨h1, _⟩
        exact h1
      split at h
      · cases h
      · split at h
        · cases h
        · obtain ⟨hs, hfs⟩ := render_ok_state h
          subst hs
          exact ⟨hlt, rfl, rfl⟩
  obtain ⟨hlt, himg, hidx⟩ := hmain
  have hL : (s.images.eraseIdx s.index).length + 1 = s.images.length :=
    List.length_eraseIdx_add_one hlt
  refine ⟨by rw [himg]; exact hL, ?_, ?_⟩
  · rw [hidx]
    split <;> omega
  · intro hlast
    constructor
    · intro h2
      have hne : s.images.eraseIdx s.index ≠ [] := by
        intro hz
        rw [hz] at hL
        simp at hL
        omega
      rw [hidx, if_pos ⟨by omega, hne⟩]
      omega
    · intro h1
      have hz : s.images.eraseIdx s.index = [] := by
        have : (s.images.eraseIdx s.index).length = 0 := by omega
        exact List.length_eq_zero.mp this
      constructor
      · rw [himg, hz]
      · rw [hidx, if_neg]
        rintro ⟨-, hne⟩
        exact hne hz

/-- Witness for C8: a concrete successful `Move` of the only image. -/
theorem c8_move_success_shrinks_witness :
    (⟨[], "keep", 0⟩ : State).images.length + 1 = (⟨[pA], "keep", 0⟩ : State).images.length
    ∧ (⟨[], "keep", 0⟩ : State).index ≤ (⟨[pA], "keep", 0⟩ : State).index
    ∧ ((⟨[pA], "keep", 0⟩ : State).index + 1 = (⟨[pA], "keep", 0⟩ : State).images.length →
        (2 ≤ (⟨[pA], "keep", 0⟩ : State).images.length →
          (⟨[], "keep", 0⟩ : State).index + 2 = (⟨[pA], "keep", 0⟩ : State).images.length)
        ∧ ((⟨[pA], "keep", 0⟩ : State).images.length = 1 →
            (⟨[], "keep", 0⟩ : State).images = []
            ∧ (⟨[], "keep", 0⟩ : State).index = (⟨[pA], "keep", 0⟩ : State).index)) :=
  c8_move_success_shrinks ⟨[pA], "keep", 0⟩ fs0 ⟨[], "keep", 0⟩
    ⟨["keep"], ["keep/a.jpg", "b.jpg", ".."]⟩ [] (by decide)

/-- Counterexample to claim C3: with the left shift key held, a `Next`
action is dispatched with step 1 — the state moves from index 0 to index 1,
not to index 10 as a step of 10 (the claimed behaviour, shown alongside)
would produce. The tracked modifier state is never consulted by the
dispatch. -/
theorem c3_shift_step_cex :
    runStep ⟨true, false⟩ ⟨List.replicate 12 pA, "keep", 0⟩ fs0 .next
      = .ok ⟨List.replicate 12 pA, "keep", 1⟩ fs0 [Effect.render pA]
    ∧ increment ⟨List.replicate 12 pA, "keep", 0⟩ fs0 10
      = .ok ⟨List.replicate 12 pA, "keep", 10⟩ fs0 [Effect.render pA]
    ∧ (⟨List.replicate 12 pA, "keep", 1⟩ : State) ≠ ⟨List.replicate 12 pA, "keep", 10⟩ := by
  decide

/-- Claim C3 as amended: the event loop passes step 1 to the navigation
operations for every `Next`/`Prev` action, whatever the modifier state —
the shift keys tracked in `ui::State` are never consulted. -/
theorem c3_run_always_step_one (ui ui' : UiState) (s : State) (fs : FS) :
    runStep ui s fs .next = increment s fs 1
    ∧ runStep ui s fs .prev = decrement s fs 1
    ∧ runStep ui s fs .next = runStep ui' s fs .next
    ∧ runStep ui s fs .prev = runStep ui' s fs .prev :=
  ⟨rfl, rfl, rfl, rfl⟩

/-- Counterexample to claim C4: on a non-empty single-element list, `Next`
returns success but performs NO render — the early return in `increment`
fires for length 1, not only for the empty list, so no render effect is
emitted although the claim requires one. -/
theorem c4_next_singleton_no_render_cex :
    increment ⟨[pA], "keep", 0⟩ fs0 1 = .ok ⟨[pA], "keep", 0⟩ fs0 []
    ∧ StepResult.ok (⟨[pA], "keep", 0⟩ : State) fs0 ([] : List Effect)
        ≠ .ok ⟨[pA], "keep", 0⟩ fs0 [Effect.render pA] := by
  decide

/-- Claim C4 as amended: for a list of at least two images and a step of at
most the list length, `Next(step)` advances `CurrentIndex` by `step`
exactly when that does not pass the last valid index, otherwise leaves it
unchanged without wrapping, and in both cases renders afterwards; on a
single-element list `Next` returns success without moving and without
rendering. (A step greater than the length underflows the usize
subtraction in the guard.) -/
theorem c4_increment_spec (s : State) (fs : FS) (step : Nat) :
    (2 ≤ s.images.length → step ≤ s.images.length → s.index < s.images.length →
      ∃ p, increment s fs step
        = .ok { s with index := if s.index + step < s.images.length then s.index + step else s.index }
            fs [Effect.render p])
    ∧ (s.images.length = 1 → increment s fs step = .ok s fs []) := by
  constructor
  · intro h2 h3 h4
    have hne : ¬(s.images = [] ∨ s.images.length = 1) := by
      rintro (h | h)
      · rw [h] at h2
        simp at h2
      · omega
    by_cases hc : s.index < s.images.length - step
    · have hlt : s.index + step < s.images.length := by omega
      simp only [increment, if_neg hne, if_pos h3, if_pos hc, if_pos hlt]
      exact ⟨_, render_ok_of_lt hlt⟩
    · have hnlt : ¬(s.index + step < s.images.length) := by omega
      simp only [increment, if_neg hne, if_pos h3, if_neg hc, if_neg hnlt]
      exact ⟨_, render_ok_of_lt h4⟩
  · intro h1
    simp only [increment, if_pos (Or.inr h1)]

/-- Witness for the amended C4: a two-image list advances and renders; a
one-image list is a silent no-op. -/
theorem c4_increment_spec_witness :
    (∃ p, increment ⟨[pA, pB], "keep", 0⟩ fs0 1
        = .ok ⟨[pA, pB], "keep", 1⟩ fs0 [Effect.render p])
    ∧ increment ⟨[pA], "keep", 0⟩ fs0 1 = .ok ⟨[pA], "keep", 0⟩ fs0 [] :=
  ⟨(c4_increment_spec ⟨[pA, pB], "keep", 0⟩ fs0 1).1 (by decide) (by decide) (by decide),
   (c4_increment_spec ⟨[pA], "keep", 0⟩ fs0 1).2 rfl⟩

/-- Counterexample to claim C5: `Prev(5)` at `CurrentIndex = 3` (list of
four images) leaves the index at 3 — it is not set to 0 as the claim
states. -/
theorem c5_prev_no_clamp_cex :
    decrement ⟨[pA, pA, pA, pA], "keep", 3⟩ fs0 5
      = .ok ⟨[pA, pA, pA, pA], "keep", 3⟩ fs0 [Effect.render pA]
    ∧ (⟨[pA, pA, pA, pA], "keep", 3⟩ : State).index ≠ 0 := by
  decide

/-- Claim C5 as amended: `Prev(step)` decreases `CurrentIndex` by `step`
when `CurrentIndex ≥ step` and otherwise leaves it unchanged (for the
step 1 the program uses, an index below the step is necessarily 0, so the
observed behaviour coincides with clamping to 0); it renders afterwards. -/
theorem c5_decrement_spec (s : State) (fs : FS) (step : Nat)
    (hidx : s.index < s.images.length) :
    ∃ p, decrement s fs step
        = .ok { s with index := if step ≤ s.index then s.index - step else s.index } fs
            [Effect.render p] := by
  by_cases hc : step ≤ s.index
  · have hlt : s.index - step < s.images.length := by omega
    simp only [decrement, if_pos hc]
    exact ⟨_, render_ok_of_lt hlt⟩
  · simp only [decrement, if_neg hc]
    exact ⟨_, render_ok_of_lt hidx⟩

/-- Witness for the amended C5: `Prev(1)` at index 1 of a two-image list
moves to index 0 and renders. -/
theorem c5_decrement_spec_witness :
    ∃ p, decrement ⟨[pA, pB], "keep", 1⟩ fs0 1
        = .ok ⟨[pA, pB], "keep", 0⟩ fs0 [Effect.render p] :=
  c5_decrement_spec ⟨[pA, pB], "keep", 1⟩ fs0 1 (by decide)

/-- Each navigation operation, when it returns `Ok`, keeps the image list
unchanged and the index strictly below the list length. -/
theorem navStep_preserves {s : State} {fs : FS} {op : NavOp} {s' : State} {fs' : FS}
    {effs : List Effect} (hne : s.images ≠ []) (hidx : s.index < s.images.length)
    (h : navStep s fs op = .ok s' fs' effs) :
    s'.images = s.images ∧ s'.index < s'.images.length := by
  have hpos : 0 < s.images.length := List.length_pos.mpr hne
  cases op with
  | next step =>
    simp only [navStep, increment] at h
    split at h
    · cases h
      exact ⟨rfl, hidx⟩
    · rename_i hns
      split at h
      · rename_i hstep
        split at h
        · rename_i hlt2
          obtain ⟨hs, -⟩ := render_ok_state h
          subst hs
          refine ⟨rfl, ?_⟩
          show s.index + step < s.images.length
          omega
        · obtain ⟨hs, -⟩ := render_ok_state h
          subst hs
          exact ⟨rfl, hidx⟩
      · cases h
  | prev step =>
    simp only [navStep, decrement] at h
    split at h
    · rename_i hc
      obtain ⟨hs, -⟩ := render_ok_state h
      subst hs
      refine ⟨rfl, ?_⟩
      show s.index - step < s.images.length
      omega
    · obtain ⟨hs, -⟩ := render_ok_state h
      subst hs
      exact ⟨rfl, hidx⟩
  | first =>
    simp only [navStep, first] at h
    obtain ⟨hs, -⟩ := render_ok_state h
    subst hs
    exact ⟨rfl, hpos⟩
  | last =>
    simp only [navStep, last] at h
    split at h
    · rename_i hemp
      exact absurd hemp hne
    · obtain ⟨hs, -⟩ := render_ok_state h
      subst hs
      refine ⟨rfl, ?_⟩
      show s.images.length - 1 < s.images.length
      omega

/-- Claim C6: starting from any valid index of a non-empty list, after any
finite sequence of `Next`/`Prev`/`First`/`Last` operations that runs to
completion, `CurrentIndex` is still within `[0, len(ImageList))` (and the
list itself is untouched). -/
theorem c6_nav_index_invariant (ops : List NavOp) (s : State) (fs : FS)
    (s' : State) (fs' : FS) (effs : List Effect)
    (hne : s.images ≠ []) (hidx : s.index < s.images.length)
    (h : navRun s fs ops = .ok s' fs' effs) :
    s'.images = s.images ∧ s'.index < s'.images.length := by
  induction ops generalizing s fs effs with
  | nil =>
    simp only [navRun] at h
    cases h
    exact ⟨rfl, hidx⟩
  | cons op ops ih =>
    simp only [navRun] at h
    split at h
    · rename_i s1 fs1 e1 hstep
      split at h
      · rename_i s2 fs2 e2 hrun
        cases h
        obtain ⟨hi1, hi2⟩ := navStep_preserves hne hidx hstep
        have hne1 : s1.images ≠ [] := by
          rw [hi1]
          exact hne
        obtain ⟨hj1, hj2⟩ := ih s1 fs1 e2 hne1 hi2 hrun
        exact ⟨by rw [hj1, hi1], hj2⟩
      · cases h
      · cases h
    · cases h
    · cases h

/-- Witness for C6: a concrete four-operation sequence on a two-image
list. -/
theorem c6_nav_index_invariant_witness :
    (⟨[pA, pB], "keep", 0⟩ : State).images = (⟨[pA, pB], "keep", 0⟩ : State).images
    ∧ (⟨[pA, pB], "keep", 0⟩ : State).index < (⟨[pA, pB], "keep", 0⟩ : State).images.length :=
  c6_nav_index_invariant [.next 1, .prev 1, .last, .first] ⟨[pA, pB], "keep", 0⟩ fs0
    ⟨[pA, pB], "keep", 0⟩ fs0
    [Effect.render pB, Effect.render pA, Effect.render pB, Effect.render pA]
    (by decide) (by decide) (by decide)

end Riv
